import Mathlib

/-!
Shallow embedding of the hdfs-mount core (a FUSE daemon exposing HDFS as a
local filesystem) for checking its natural-language specification.

Each definition mirrors a Go function or type of the repository:
  * `GoError`, `IsSuccessOrBenignError`        — HdfsAccessor.go
  * `RetryPolicy`, `Op`, `Op.shouldRetry`      — RetryPolicy.go
  * `ftRetryLoop` and the per-operation fronts — FaultTolerantHdfsAccessor.go
  * `FileHandleWriter` write/flush             — FileHandleWriter.go
  * `readPartialPlan`                          — FileHandleReader.go, FileFragment.go
  * `Dir.readDirAll`, `Dir.lookup`             — Dir.go, FileSystem.go (prefix gate)
  * `hdfsRemove`                               — HdfsAccessor.go (trash semantics)
  * `FaultTolerantHdfsReader.seek`             — FaultTolerantHdfsReader.go, HdfsReader.go

Modelling conventions: Go `time.Duration`/`time.Time` are `Nat` nanosecond
counts; the `Clock` interface is an explicit `now : Nat` argument at each
observation point; the `float64` exponential-backoff base 1.618 is embedded
as the exact fraction 809/500 (numerator/denominator fields) and
`time.Duration(float64(d) * base)` (truncation toward zero of a non-negative
product) as floor division `d * num / den`; Go `error` values are
`Option GoError` (`none` = nil); calls against the opaque wire client are
oracles (`Nat → …` result streams) with call and close counts recorded in
the outcome.
-/

/-- Distinguished Go error values relevant to the classification in
`IsSuccessOrBenignError`: `io.EOF`, `fuse.EEXIST`, `os.ErrNotExist`, and any
other error (tagged by a code). -/
inductive ErrKind where
  | eof
  | eexist
  | notExist
  | enoent
  | tooLarge
  | other (code : Nat)
  deriving DecidableEq, Repr

/-- A Go error value: either a bare sentinel/error, or an `*os.PathError`
wrapping an inner error. -/
inductive GoError where
  | base (k : ErrKind)
  | pathError (inner : GoError)
  deriving DecidableEq, Repr

/-- `IsSuccessOrBenignError` (HdfsAccessor.go): true when `err == nil`,
`err == io.EOF`, `err == fuse.EEXIST`, or `err` is an `*os.PathError` whose
`Err` field is `os.ErrNotExist`. -/
def IsSuccessOrBenignError : Option GoError → Bool
  | none => true
  | some (.base .eof) => true
  | some (.base .eexist) => true
  | some (.pathError inner) => inner = .base .notExist
  | some _ => false

/-- `RetryPolicy` (RetryPolicy.go): durations in nanoseconds, the `float64`
field `ExpBackoffBase` embedded as the exact fraction
`ExpBackoffBaseNum / ExpBackoffBaseDen` (1.618 = 809/500). -/
structure RetryPolicy where
  MaxAttempts : Nat
  TimeLimit : Nat
  MinDelay : Nat
  MaxDelay : Nat
  RandomizeDelays : Bool
  ExpBackoffBaseNum : Nat
  ExpBackoffBaseDen : Nat
  deriving DecidableEq, Repr

/-- `Op` (RetryPolicy.go): per-operation retry context. -/
structure Op where
  policy : RetryPolicy
  Attempt : Nat
  Expires : Nat
  Delay : Nat
  deriving DecidableEq, Repr

/-- `RetryPolicy.StartOperation` (RetryPolicy.go): `Attempt = 1`,
`Expires = Clock.Now() + TimeLimit`; the Go zero value of `Delay` is 0. -/
def RetryPolicy.StartOperation (p : RetryPolicy) (now : Nat) : Op :=
  { policy := p, Attempt := 1, Expires := now + p.TimeLimit, Delay := 0 }

/-- `NewNoRetryPolicy` (RetryPolicy.go): `{MaxAttempts: 1}`, every other
field the Go zero value. -/
def NewNoRetryPolicy : RetryPolicy :=
  { MaxAttempts := 1, TimeLimit := 0, MinDelay := 0, MaxDelay := 0,
    RandomizeDelays := false, ExpBackoffBaseNum := 0, ExpBackoffBaseDen := 1 }

/-- Outcome of one `Op.ShouldRetry` call: whether to retry, how long the
call slept before returning, and the updated operation context. -/
structure RetryOutcome where
  retry : Bool
  sleep : Nat
  next : Op
  deriving DecidableEq, Repr

/-- `time.Duration(float64(d) * (num/den))` for a non-negative product:
floor of the exact product, as Nat floor division. -/
def scaleDelay (d num den : Nat) : Nat := d * num / den

/-- `Op.ShouldRetry` (RetryPolicy.go). Returns false (no sleep, context
unchanged) when `Attempt >= MaxAttempts` or `Now() > Expires`; otherwise
updates `Delay` (`Attempt == 2` → `MinDelay`; `Attempt > 2` →
`min(Delay * ExpBackoffBase, MaxDelay)`), sleeps the effective delay
(randomized into `[MinDelay, Delay]` via the fraction `rnum/rden` standing
for `rand.Float64()` when configured and `Delay > MinDelay`), increments
`Attempt`, and returns true. -/
def Op.shouldRetry (op : Op) (now : Nat) (rnum rden : Nat) : RetryOutcome :=
  if op.Attempt ≥ op.policy.MaxAttempts ∨ now > op.Expires then
    { retry := false, sleep := 0, next := op }
  else
    let delay :=
      if op.Attempt = 2 then op.policy.MinDelay
      else if op.Attempt > 2 then
        min (scaleDelay op.Delay op.policy.ExpBackoffBaseNum op.policy.ExpBackoffBaseDen)
          op.policy.MaxDelay
      else op.Delay
    let effectiveDelay :=
      if op.policy.RandomizeDelays ∧ delay > op.policy.MinDelay then
        op.policy.MinDelay + scaleDelay (delay - op.policy.MinDelay) rnum rden
      else delay
    { retry := true, sleep := effectiveDelay,
      next := { op with Attempt := op.Attempt + 1, Delay := delay } }

/-! ### The exponential-backoff scenario trace

`Op.shouldRetry` iterated from `StartOperation` under the policy of the
spec's backoff scenario: `minDelay = 1 s`, `maxDelay = 60 s`,
`expBase = 1.618 = 809/500`, randomization off, generous attempt and time
budgets, with the clock pinned at 0 (sleeps are recorded, not simulated). -/

/-- The backoff-scenario policy (`minDelay=1s, maxDelay=60s, expBase=1.618,
randomize=off`; attempt/time budgets large enough to never interfere). -/
def backoffPolicy : RetryPolicy :=
  { MaxAttempts := 1000000, TimeLimit := 1000000000000000000,
    MinDelay := 1000000000, MaxDelay := 60000000000,
    RandomizeDelays := false, ExpBackoffBaseNum := 809, ExpBackoffBaseDen := 500 }

/-- Operation context before the `(n+1)`-st `ShouldRetry` call of the
backoff scenario. -/
def backoffOpSeq : Nat → Op
  | 0 => backoffPolicy.StartOperation 0
  | n + 1 => ((backoffOpSeq n).shouldRetry 0 0 1).next

/-- Sleep performed by the `(n+1)`-st `ShouldRetry` call of the backoff
scenario (the call made with `Attempt = n+1`). -/
def backoffSleep (n : Nat) : Nat := ((backoffOpSeq n).shouldRetry 0 0 1).sleep

/-- The delay value `Op.ShouldRetry` computes on a retried attempt
(helper for stating unfolding lemmas). -/
def nextDelay (op : Op) : Nat :=
  if op.Attempt = 2 then op.policy.MinDelay
  else if op.Attempt > 2 then
    min (scaleDelay op.Delay op.policy.ExpBackoffBaseNum op.policy.ExpBackoffBaseDen)
      op.policy.MaxDelay
  else op.Delay

lemma shouldRetry_stop (op : Op) (now rn rd : Nat)
    (h : op.Attempt ≥ op.policy.MaxAttempts ∨ now > op.Expires) :
    op.shouldRetry now rn rd = { retry := false, sleep := 0, next := op } := by
  unfold Op.shouldRetry
  rw [if_pos h]

lemma shouldRetry_go (op : Op) (now rn rd : Nat)
    (h : ¬ (op.Attempt ≥ op.policy.MaxAttempts ∨ now > op.Expires)) :
    op.shouldRetry now rn rd =
      { retry := true,
        sleep := if op.policy.RandomizeDelays ∧ nextDelay op > op.policy.MinDelay then
            op.policy.MinDelay + scaleDelay (nextDelay op - op.policy.MinDelay) rn rd
          else nextDelay op,
        next := { op with Attempt := op.Attempt + 1, Delay := nextDelay op } } := by
  unfold Op.shouldRetry
  rw [if_neg h]
  rfl

lemma backoffOpSeq_inv (n : Nat) :
    (backoffOpSeq n).policy = backoffPolicy ∧
    (backoffOpSeq n).Expires = backoffPolicy.TimeLimit ∧
    (backoffOpSeq n).Attempt = min (n + 1) 1000000 ∧
    (backoffOpSeq n).Delay ≤ 60000000000 := by
  induction n with
  | zero => exact ⟨rfl, rfl, rfl, Nat.zero_le _⟩
  | succ n ih =>
      obtain ⟨hp, he, ha, hd⟩ := ih
      by_cases hstop :
          (backoffOpSeq n).Attempt ≥ (backoffOpSeq n).policy.MaxAttempts ∨
            0 > (backoffOpSeq n).Expires
      · have hstep : backoffOpSeq (n + 1) = backoffOpSeq n := by
          show ((backoffOpSeq n).shouldRetry 0 0 1).next = backoffOpSeq n
          rw [shouldRetry_stop _ _ _ _ hstop]
        have hcap : min (n + 1) 1000000 = 1000000 := by
          rcases hstop with hmax | htime
          · rw [hp] at hmax
            rw [ha] at hmax
            have : (1000000 : Nat) ≤ min (n + 1) 1000000 := hmax
            omega
          · exact absurd htime (by omega)
        rw [hstep]
        refine ⟨hp, he, ?_, hd⟩
        rw [ha, hcap]
        omega
      · have hstep : backoffOpSeq (n + 1) =
            { backoffOpSeq n with
              Attempt := (backoffOpSeq n).Attempt + 1,
              Delay := nextDelay (backoffOpSeq n) } := by
          show ((backoffOpSeq n).shouldRetry 0 0 1).next = _
          rw [shouldRetry_go _ _ _ _ hstop]
        have hlt : n + 1 < 1000000 := by
          push_neg at hstop
          obtain ⟨hlt, -⟩ := hstop
          rw [hp] at hlt
          rw [ha] at hlt
          simp only [backoffPolicy] at hlt
          omega
        rw [hstep]
        refine ⟨hp, he, ?_, ?_⟩
        · show (backoffOpSeq n).Attempt + 1 = min (n + 1 + 1) 1000000
          rw [ha]
          omega
        · show nextDelay (backoffOpSeq n) ≤ 60000000000
          unfold nextDelay
          rw [hp]
          by_cases h2 : (backoffOpSeq n).Attempt = 2
          · rw [if_pos h2]
            norm_num [backoffPolicy]
          · rw [if_neg h2]
            by_cases h3 : (backoffOpSeq n).Attempt > 2
            · rw [if_pos h3]
              exact min_le_right _ _
            · rw [if_neg h3]
              exact hd

lemma backoffOpSeq_not_stop (n : Nat) (h : n + 1 < 1000000) :
    ¬ ((backoffOpSeq n).Attempt ≥ (backoffOpSeq n).policy.MaxAttempts ∨
        0 > (backoffOpSeq n).Expires) := by
  obtain ⟨hp, -, ha, -⟩ := backoffOpSeq_inv n
  push_neg
  refine ⟨?_, Nat.zero_le _⟩
  rw [hp, ha]
  show min (n + 1) 1000000 < backoffPolicy.MaxAttempts
  simp only [backoffPolicy]
  omega

lemma backoffSleep_eq_next_delay (n : Nat) (h : n + 1 < 1000000) :
    backoffSleep n = (backoffOpSeq (n + 1)).Delay := by
  obtain ⟨hp, -, -, -⟩ := backoffOpSeq_inv n
  have hg := shouldRetry_go (backoffOpSeq n) 0 0 1 (backoffOpSeq_not_stop n h)
  show ((backoffOpSeq n).shouldRetry 0 0 1).sleep =
    ((backoffOpSeq n).shouldRetry 0 0 1).next.Delay
  rw [hg]
  show (if (backoffOpSeq n).policy.RandomizeDelays ∧ _ then _ else _) = _
  rw [hp]
  show (if (false : Bool) = true ∧ _ then _ else _) = _
  rw [if_neg (by simp)]

lemma backoffSleep_mono_step (n : Nat) (h : n + 2 < 1000000) :
    backoffSleep n ≤ backoffSleep (n + 1) := by
  rw [backoffSleep_eq_next_delay n (by omega), backoffSleep_eq_next_delay (n + 1) (by omega)]
  obtain ⟨hp, -, ha, hd⟩ := backoffOpSeq_inv (n + 1)
  have hstep : backoffOpSeq (n + 2) =
      { backoffOpSeq (n + 1) with
        Attempt := (backoffOpSeq (n + 1)).Attempt + 1,
        Delay := nextDelay (backoffOpSeq (n + 1)) } := by
    show ((backoffOpSeq (n + 1)).shouldRetry 0 0 1).next = _
    rw [shouldRetry_go _ _ _ _ (backoffOpSeq_not_stop (n + 1) (by omega))]
  rw [hstep]
  show (backoffOpSeq (n + 1)).Delay ≤ nextDelay (backoffOpSeq (n + 1))
  have ha' : (backoffOpSeq (n + 1)).Attempt = n + 2 := by
    rw [ha]; omega
  unfold nextDelay
  by_cases h2 : (backoffOpSeq (n + 1)).Attempt = 2
  · rw [if_pos h2]
    have hn0 : n = 0 := by omega
    subst hn0
    have hz : (backoffOpSeq 1).Delay = 0 := by decide
    rw [hz]
    exact Nat.zero_le _
  · rw [if_neg h2, if_pos (by omega)]
    refine le_min ?_ ?_
    · rw [hp]
      show (backoffOpSeq (n + 1)).Delay ≤ (backoffOpSeq (n + 1)).Delay * 809 / 500
      calc (backoffOpSeq (n + 1)).Delay
          = (backoffOpSeq (n + 1)).Delay * 500 / 500 := by omega
        _ ≤ (backoffOpSeq (n + 1)).Delay * 809 / 500 :=
            Nat.div_le_div_right (Nat.mul_le_mul_left _ (by norm_num))
    · rw [hp]
      exact hd

lemma backoffSleep_recurrence (n : Nat) (h : n + 3 < 1000000) :
    backoffSleep (n + 2) =
      min (scaleDelay (backoffSleep (n + 1)) backoffPolicy.ExpBackoffBaseNum
        backoffPolicy.ExpBackoffBaseDen) backoffPolicy.MaxDelay := by
  rw [backoffSleep_eq_next_delay (n + 2) (by omega)]
  obtain ⟨hp, -, ha, -⟩ := backoffOpSeq_inv (n + 2)
  have hstep : backoffOpSeq (n + 3) =
      { backoffOpSeq (n + 2) with
        Attempt := (backoffOpSeq (n + 2)).Attempt + 1,
        Delay := nextDelay (backoffOpSeq (n + 2)) } := by
    show ((backoffOpSeq (n + 2)).shouldRetry 0 0 1).next = _
    rw [shouldRetry_go _ _ _ _ (backoffOpSeq_not_stop (n + 2) (by omega))]
  rw [hstep]
  show nextDelay (backoffOpSeq (n + 2)) = _
  have ha' : (backoffOpSeq (n + 2)).Attempt = n + 3 := by
    rw [ha]; omega
  unfold nextDelay
  rw [if_neg (by omega), if_pos (by omega), hp,
    backoffSleep_eq_next_delay (n + 1) (by omega)]

/-- Policy of the spec's three-attempt-cap scenario: `maxAttempts = 3`,
with a time budget that never interferes. -/
def threeAttemptPolicy : RetryPolicy :=
  { MaxAttempts := 3, TimeLimit := 1000, MinDelay := 0, MaxDelay := 0,
    RandomizeDelays := false, ExpBackoffBaseNum := 0, ExpBackoffBaseDen := 1 }

/-- C1: `ShouldRetry` returns false exactly when, at entry, the attempt
count has reached `MaxAttempts` or the clock is past the deadline; an `Op`
from `StartOperation` starts at `Attempt = 1` with
`Expires = start + TimeLimit`; with `maxAttempts = 3` three successive
calls answer true, true, false; and the no-retry policy `{maxAttempts: 1}`
answers false on its first call. -/
theorem shouldRetry_false_iff_exhausted :
    (∀ (op : Op) (now rn rd : Nat),
      ((op.shouldRetry now rn rd).retry = false ↔
        op.Attempt ≥ op.policy.MaxAttempts ∨ now > op.Expires)) ∧
    (∀ (p : RetryPolicy) (now : Nat),
      (p.StartOperation now).Attempt = 1 ∧
      (p.StartOperation now).Expires = now + p.TimeLimit) ∧
    (((threeAttemptPolicy.StartOperation 0).shouldRetry 0 0 1).retry = true ∧
      ((((threeAttemptPolicy.StartOperation 0).shouldRetry 0 0 1).next).shouldRetry 0 0 1).retry
        = true ∧
      (((((threeAttemptPolicy.StartOperation 0).shouldRetry 0 0 1).next).shouldRetry 0 0
          1).next.shouldRetry 0 0 1).retry = false) ∧
    (∀ (t rn rd : Nat),
      ((NewNoRetryPolicy.StartOperation t).shouldRetry t rn rd).retry = false) := by
  refine ⟨?_, ?_, by decide, ?_⟩
  · intro op now rn rd
    by_cases h : op.Attempt ≥ op.policy.MaxAttempts ∨ now > op.Expires
    · rw [shouldRetry_stop _ _ _ _ h]
      simpa using h
    · rw [shouldRetry_go _ _ _ _ h]
      simpa using h
  · intro p now
    exact ⟨rfl, rfl⟩
  · intro t rn rd
    rw [shouldRetry_stop _ _ _ _ (Or.inl (le_refl 1))]

/-- C2: with randomization off the sleeps of the backoff scenario
(`minDelay=1s, expBase=1.618, maxDelay=60s`) are 0 at attempt 1, `MinDelay`
at attempt 2, and `min(previous × base, MaxDelay)` afterwards; in
nanoseconds the first five sleeps are exactly 0, 1000000000, 1618000000,
2617924000, 4235801032 — i.e. the claimed 0, 1.000, 1.618, 2.618, 4.236 s
to within half a millisecond of display rounding — the sequence is
non-decreasing as long as retries remain permitted, and by the attempt-12
call the sleep has saturated at the 60 s `MaxDelay`. -/
theorem backoff_sleep_schedule :
    (backoffSleep 0 = 0 ∧ backoffSleep 1 = 1000000000 ∧ backoffSleep 2 = 1618000000 ∧
      backoffSleep 3 = 2617924000 ∧ backoffSleep 4 = 4235801032) ∧
    (backoffSleep 1 = backoffPolicy.MinDelay ∧
      2618000000 - backoffSleep 3 < 500000 ∧ 4236000000 - backoffSleep 4 < 500000) ∧
    (∀ n, n + 3 < 1000000 → backoffSleep (n + 2) =
      min (scaleDelay (backoffSleep (n + 1)) backoffPolicy.ExpBackoffBaseNum
        backoffPolicy.ExpBackoffBaseDen) backoffPolicy.MaxDelay) ∧
    (∀ n, n + 2 < 1000000 → backoffSleep n ≤ backoffSleep (n + 1)) ∧
    backoffSleep 11 = 60000000000 ∧ backoffPolicy.MaxDelay = 60000000000 :=
  ⟨by decide, by decide, backoffSleep_recurrence, backoffSleep_mono_step, by decide, rfl⟩

/-- Witness for C2: the recurrence and monotonicity at a concrete index. -/
theorem backoff_sleep_schedule_witness :
    backoffSleep 5 = min (scaleDelay (backoffSleep 4) backoffPolicy.ExpBackoffBaseNum
      backoffPolicy.ExpBackoffBaseDen) backoffPolicy.MaxDelay ∧
    backoffSleep 3 ≤ backoffSleep 4 :=
  ⟨backoff_sleep_schedule.2.2.1 3 (by norm_num),
    backoff_sleep_schedule.2.2.2.1 3 (by norm_num)⟩

/-! ### Fault-tolerant accessor retry loops (FaultTolerantHdfsAccessor.go) -/

/-- `Attrs` (Attrs.go): times and expiry as nanosecond counts, `os.FileMode`
as a bit pattern (`Nat`, directory flag = bit 31 as in `os.ModeDir`). -/
structure Attrs where
  Inode : Nat
  Name : String
  Mode : Nat
  Size : Nat
  Uid : Nat
  Gid : Nat
  Mtime : Nat
  Ctime : Nat
  Crtime : Nat
  Expires : Nat
  deriving DecidableEq, Repr

/-- `FsInfo` (Attrs.go): HDFS usage in bytes. -/
structure FsInfo where
  capacity : Nat
  used : Nat
  remaining : Nat
  deriving DecidableEq, Repr

/-- Observable outcome of one fault-tolerant accessor operation: the
returned value and error, the number of calls made to the wrapped
`HdfsAccessor`, and the number of `Impl.Close()` connection resets. -/
structure FtOutcome (α : Type) where
  value : α
  err : Option GoError
  calls : Nat
  closes : Nat
  deriving Repr

/-- The retry loop shared by every `FaultTolerantHdfsAccessor` operation
(FaultTolerantHdfsAccessor.go): call the wrapped accessor (`results i` is
the value/error of its `(i+1)`-st call, `times i` the clock reading at the
`(i+1)`-st `ShouldRetry`); return on a benign error or when `ShouldRetry`
declines; otherwise `Impl.Close()` (except in `EnsureConnected`, which has
no reset — `closeOnRetry` distinguishes it) and loop. Fuel bounds the
recursion; `MaxAttempts` retries never exhaust `MaxAttempts + 1` fuel. -/
def ftRetryLoopAux {α : Type} (results : Nat → α × Option GoError)
    (times : Nat → Nat) (closeOnRetry : Bool) :
    Nat → Op → Nat → FtOutcome α
  | i, _, 0 =>
      { value := (results i).1, err := (results i).2, calls := 1, closes := 0 }
  | i, op, fuel + 1 =>
      if IsSuccessOrBenignError (results i).2 then
        { value := (results i).1, err := (results i).2, calls := 1, closes := 0 }
      else
        let s := op.shouldRetry (times i) 0 1
        if s.retry then
          let rest := ftRetryLoopAux results times closeOnRetry (i + 1) s.next fuel
          { rest with
              calls := rest.calls + 1
              closes := rest.closes + (if closeOnRetry then 1 else 0) }
        else
          { value := (results i).1, err := (results i).2, calls := 1, closes := 0 }

/-- Entry point of the retry loop: `StartOperation` happened already, the
`Op` is passed in; fuel is one more than the attempt budget. -/
def ftRetryLoop {α : Type} (results : Nat → α × Option GoError)
    (times : Nat → Nat) (closeOnRetry : Bool) (op : Op) : FtOutcome α :=
  ftRetryLoopAux results times closeOnRetry 0 op (op.policy.MaxAttempts + 1)

/-- `FaultTolerantHdfsAccessor.Stat` (FaultTolerantHdfsAccessor.go). -/
def FaultTolerantStat (results : Nat → Attrs × Option GoError)
    (times : Nat → Nat) (op : Op) : FtOutcome Attrs :=
  ftRetryLoop results times true op

/-- `FaultTolerantHdfsAccessor.ReadDir` (FaultTolerantHdfsAccessor.go). -/
def FaultTolerantReadDir (results : Nat → List Attrs × Option GoError)
    (times : Nat → Nat) (op : Op) : FtOutcome (List Attrs) :=
  ftRetryLoop results times true op

/-- `FaultTolerantHdfsAccessor.StatFs` (FaultTolerantHdfsAccessor.go). -/
def FaultTolerantStatFs (results : Nat → FsInfo × Option GoError)
    (times : Nat → Nat) (op : Op) : FtOutcome FsInfo :=
  ftRetryLoop results times true op

/-- `FaultTolerantHdfsAccessor.Mkdir` (FaultTolerantHdfsAccessor.go);
error-only operations return `Unit` besides the error. -/
def FaultTolerantMkdir (results : Nat → Unit × Option GoError)
    (times : Nat → Nat) (op : Op) : FtOutcome Unit :=
  ftRetryLoop results times true op

/-- `FaultTolerantHdfsAccessor.Remove` (FaultTolerantHdfsAccessor.go). -/
def FaultTolerantRemove (results : Nat → Unit × Option GoError)
    (times : Nat → Nat) (op : Op) : FtOutcome Unit :=
  ftRetryLoop results times true op

/-- `FaultTolerantHdfsAccessor.Rename` (FaultTolerantHdfsAccessor.go). -/
def FaultTolerantRename (results : Nat → Unit × Option GoError)
    (times : Nat → Nat) (op : Op) : FtOutcome Unit :=
  ftRetryLoop results times true op

/-- `FaultTolerantHdfsAccessor.Chmod` (FaultTolerantHdfsAccessor.go). -/
def FaultTolerantChmod (results : Nat → Unit × Option GoError)
    (times : Nat → Nat) (op : Op) : FtOutcome Unit :=
  ftRetryLoop results times true op

/-- `FaultTolerantHdfsAccessor.Chown` (FaultTolerantHdfsAccessor.go). -/
def FaultTolerantChown (results : Nat → Unit × Option GoError)
    (times : Nat → Nat) (op : Op) : FtOutcome Unit :=
  ftRetryLoop results times true op

/-- `FaultTolerantHdfsAccessor.EnsureConnected`
(FaultTolerantHdfsAccessor.go): same loop but with no `Impl.Close()`. -/
def FaultTolerantEnsureConnected (results : Nat → Unit × Option GoError)
    (times : Nat → Nat) (op : Op) : FtOutcome Unit :=
  ftRetryLoop results times false op

lemma ftRetryLoopAux_benign {α : Type} (results : Nat → α × Option GoError)
    (times : Nat → Nat) (c : Bool) (i : Nat) (op : Op) (fuel : Nat)
    (h : IsSuccessOrBenignError (results i).2 = true) :
    ftRetryLoopAux results times c i op fuel =
      { value := (results i).1, err := (results i).2, calls := 1, closes := 0 } := by
  cases fuel with
  | zero => rfl
  | succ fuel =>
      unfold ftRetryLoopAux
      rw [if_pos h]

lemma ftRetryLoop_benign {α : Type} (results : Nat → α × Option GoError)
    (times : Nat → Nat) (c : Bool) (op : Op)
    (h : IsSuccessOrBenignError (results 0).2 = true) :
    ftRetryLoop results times c op =
      { value := (results 0).1, err := (results 0).2, calls := 1, closes := 0 } :=
  ftRetryLoopAux_benign results times c 0 op _ h

/-- A concrete attribute record for instantiating witnesses. -/
def sampleAttrs : Attrs := ⟨1, "a", 0, 0, 0, 0, 0, 0, 0, 0⟩

/-- C3: `IsSuccessOrBenignError` holds exactly for nil, end-of-stream,
already-exists, and a path error wrapping not-found; and each fault-tolerant
accessor operation (`Stat`, `ReadDir`, `StatFs`, `Mkdir`, `Remove`,
`Rename`, `Chmod`, `Chown`, `EnsureConnected`) returns a benign result of
the wrapped accessor immediately: one underlying call, no retry, no
`Impl.Close()` reset. -/
theorem benign_errors_classified_and_propagated :
    (∀ e : Option GoError,
      IsSuccessOrBenignError e = true ↔
        e = none ∨ e = some (.base .eof) ∨ e = some (.base .eexist) ∨
          e = some (.pathError (.base .notExist))) ∧
    (∀ (r : Nat → Attrs × Option GoError) (t : Nat → Nat) (op : Op),
      IsSuccessOrBenignError (r 0).2 = true →
      FaultTolerantStat r t op = ⟨(r 0).1, (r 0).2, 1, 0⟩) ∧
    (∀ (r : Nat → List Attrs × Option GoError) (t : Nat → Nat) (op : Op),
      IsSuccessOrBenignError (r 0).2 = true →
      FaultTolerantReadDir r t op = ⟨(r 0).1, (r 0).2, 1, 0⟩) ∧
    (∀ (r : Nat → FsInfo × Option GoError) (t : Nat → Nat) (op : Op),
      IsSuccessOrBenignError (r 0).2 = true →
      FaultTolerantStatFs r t op = ⟨(r 0).1, (r 0).2, 1, 0⟩) ∧
    (∀ (r : Nat → Unit × Option GoError) (t : Nat → Nat) (op : Op),
      IsSuccessOrBenignError (r 0).2 = true →
      FaultTolerantMkdir r t op = ⟨(r 0).1, (r 0).2, 1, 0⟩ ∧
      FaultTolerantRemove r t op = ⟨(r 0).1, (r 0).2, 1, 0⟩ ∧
      FaultTolerantRename r t op = ⟨(r 0).1, (r 0).2, 1, 0⟩ ∧
      FaultTolerantChmod r t op = ⟨(r 0).1, (r 0).2, 1, 0⟩ ∧
      FaultTolerantChown r t op = ⟨(r 0).1, (r 0).2, 1, 0⟩ ∧
      FaultTolerantEnsureConnected r t op = ⟨(r 0).1, (r 0).2, 1, 0⟩) := by
  refine ⟨?_, ?_, ?_, ?_, ?_⟩
  · intro e
    match e with
    | none => simp [IsSuccessOrBenignError]
    | some (.base k) => cases k <;> simp [IsSuccessOrBenignError]
    | some (.pathError inner) => simp [IsSuccessOrBenignError]
  · intro r t op h
    exact ftRetryLoop_benign r t true op h
  · intro r t op h
    exact ftRetryLoop_benign r t true op h
  · intro r t op h
    exact ftRetryLoop_benign r t true op h
  · intro r t op h
    exact ⟨ftRetryLoop_benign r t true op h, ftRetryLoop_benign r t true op h,
      ftRetryLoop_benign r t true op h, ftRetryLoop_benign r t true op h,
      ftRetryLoop_benign r t true op h, ftRetryLoop_benign r t false op h⟩

/-- Witness for C3: concrete benign results (already-exists at `Stat`,
wrapped not-found at `Remove`, nil at `EnsureConnected`) propagate with one
call and zero resets. -/
theorem benign_errors_classified_and_propagated_witness :
    FaultTolerantStat (fun _ => (sampleAttrs, some (.base .eexist))) (fun _ => 0)
        (backoffPolicy.StartOperation 0) = ⟨sampleAttrs, some (.base .eexist), 1, 0⟩ ∧
    FaultTolerantRemove (fun _ => ((), some (.pathError (.base .notExist)))) (fun _ => 0)
        (backoffPolicy.StartOperation 0) = ⟨(), some (.pathError (.base .notExist)), 1, 0⟩ ∧
    FaultTolerantEnsureConnected (fun _ => ((), none)) (fun _ => 0)
        (backoffPolicy.StartOperation 0) = ⟨(), none, 1, 0⟩ :=
  ⟨benign_errors_classified_and_propagated.2.1 _ _ _ (by decide),
    (benign_errors_classified_and_propagated.2.2.2.2 _ _ _ (by decide)).2.1,
    (benign_errors_classified_and_propagated.2.2.2.2 _ _ _ (by decide)).2.2.2.2.2⟩

/-! ### Write stager (FileHandleWriter.go) -/

/-- Observable outcome of `FileHandleWriter.Flush`: returned error, number
of `FlushAttempt()` invocations, number of `HdfsAccessor.Close()`
connection resets. -/
structure FlushOutcome where
  err : Option GoError
  attempts : Nat
  closes : Nat
  deriving DecidableEq, Repr

/-- The retry loop of `FileHandleWriter.Flush` (FileHandleWriter.go):
`attemptErr i` is the error of the `(i+1)`-st `FlushAttempt()`. The loop
returns when `err != io.EOF || IsSuccessOrBenignError(err) ||
!op.ShouldRetry("Flush()", err)` (left-to-right short-circuit, so
`ShouldRetry` runs only when the first two disjuncts are false), otherwise
calls `HdfsAccessor.Close()` and repeats. -/
def flushLoopAux (attemptErr : Nat → Option GoError) (times : Nat → Nat) :
    Nat → Op → Nat → FlushOutcome
  | i, _, 0 => { err := attemptErr i, attempts := 1, closes := 0 }
  | i, op, fuel + 1 =>
      if attemptErr i ≠ some (.base .eof) ∨ IsSuccessOrBenignError (attemptErr i) = true then
        { err := attemptErr i, attempts := 1, closes := 0 }
      else
        let s := op.shouldRetry (times i) 0 1
        if s.retry then
          let rest := flushLoopAux attemptErr times (i + 1) s.next fuel
          { rest with attempts := rest.attempts + 1, closes := rest.closes + 1 }
        else
          { err := attemptErr i, attempts := 1, closes := 0 }

/-- `FileHandleWriter.Flush` (FileHandleWriter.go): no-op when
`BytesWritten == 0`, otherwise the retry loop above starting from a fresh
operation context. -/
def fhwFlush (bytesWritten : Nat) (attemptErr : Nat → Option GoError)
    (times : Nat → Nat) (op : Op) : FlushOutcome :=
  if bytesWritten = 0 then { err := none, attempts := 0, closes := 0 }
  else flushLoopAux attemptErr times 0 op (op.policy.MaxAttempts + 1)

lemma flushLoopAux_first (attemptErr : Nat → Option GoError) (times : Nat → Nat)
    (i : Nat) (op : Op) (fuel : Nat) :
    flushLoopAux attemptErr times i op fuel =
      { err := attemptErr i, attempts := 1, closes := 0 } := by
  have h : attemptErr i ≠ some (.base .eof) ∨
      IsSuccessOrBenignError (attemptErr i) = true := by
    by_cases he : attemptErr i = some (.base .eof)
    · right
      rw [he]
      rfl
    · exact Or.inl he
  cases fuel with
  | zero => rfl
  | succ fuel =>
      unfold flushLoopAux
      rw [if_pos h]

/-- C4 (code bug exhibit): for every error stream, clock and operation
context, a `Flush` with pending bytes performs exactly one `FlushAttempt`,
never calls `HdfsAccessor.Close()`, and returns the first attempt's error —
the retry/reset branch of the loop is unreachable, because any non-EOF
error satisfies `err != io.EOF` and `io.EOF` itself is classified benign,
so the guard `err != io.EOF || IsSuccessOrBenignError(err) || …` always
short-circuits to a return. -/
theorem flush_single_attempt_no_reset :
    ∀ (attemptErr : Nat → Option GoError) (times : Nat → Nat) (op : Op) (bw : Nat),
      fhwFlush (bw + 1) attemptErr times op =
        { err := attemptErr 0, attempts := 1, closes := 0 } := by
  intro attemptErr times op bw
  unfold fhwFlush
  rw [if_neg (Nat.succ_ne_zero bw)]
  exact flushLoopAux_first attemptErr times 0 op _

/-- Observable outcome of `FileHandleWriter.Write`: returned error,
`resp.Size`, whether the staging-file `WriteAt` ran, and the `BytesWritten`
counter after the call. -/
structure WriteOutcome where
  err : Option GoError
  respSize : Nat
  stagingWriteCalled : Bool
  bytesWrittenAfter : Nat
  deriving DecidableEq, Repr

/-- `FileHandleWriter.Write` (FileHandleWriter.go): call `StatFs`
(`statFs = (fsInfo, err)`); on `StatFs` failure only log and continue; on
success fail with *too-large-file* when `offset ≥ fsInfo.remaining`;
otherwise `stagingFile.WriteAt(data, offset)` (`writeAt = (nw, err)` is its
result), set `resp.Size = nw`, propagate a write error, and on success add
`nw` to `BytesWritten`. -/
def fhwWrite (statFs : FsInfo × Option GoError) (writeAt : Nat × Option GoError)
    (offset bytesWritten : Nat) : WriteOutcome :=
  let proceed : WriteOutcome :=
    if writeAt.2 = none then
      { err := none, respSize := writeAt.1, stagingWriteCalled := true,
        bytesWrittenAfter := bytesWritten + writeAt.1 }
    else
      { err := writeAt.2, respSize := writeAt.1, stagingWriteCalled := true,
        bytesWrittenAfter := bytesWritten }
  if statFs.2 ≠ none then proceed
  else if offset ≥ statFs.1.remaining then
    { err := some (.base .tooLarge), respSize := 0, stagingWriteCalled := false,
      bytesWrittenAfter := bytesWritten }
  else proceed

/-- C5: when `StatFs` succeeds and the write offset is at or beyond the
reported remaining capacity, `Write` fails with *too-large-file* before
touching the staging file; in particular remaining 5 bytes and offset 11
yield *too-large*. -/
theorem write_too_large_guard :
    (∀ (fsInfo : FsInfo) (writeAt : Nat × Option GoError) (offset bytesWritten : Nat),
      offset ≥ fsInfo.remaining →
      fhwWrite (fsInfo, none) writeAt offset bytesWritten =
        { err := some (.base .tooLarge), respSize := 0, stagingWriteCalled := false,
          bytesWrittenAfter := bytesWritten }) ∧
    fhwWrite (⟨100, 95, 5⟩, none) (4096, none) 11 0 =
      { err := some (.base .tooLarge), respSize := 0, stagingWriteCalled := false,
        bytesWrittenAfter := 0 } := by
  constructor
  · intro fsInfo writeAt offset bytesWritten h
    unfold fhwWrite
    rw [if_neg (by simp), if_pos h]
  · decide

/-- Witness for C5: the guard applied at remaining 5, offset 11. -/
theorem write_too_large_guard_witness :
    fhwWrite (⟨100, 95, 5⟩, none) (4096, none) 11 7 =
      { err := some (.base .tooLarge), respSize := 0, stagingWriteCalled := false,
        bytesWrittenAfter := 7 } :=
  write_too_large_guard.1 ⟨100, 95, 5⟩ (4096, none) 11 7 (by norm_num)

/-- C10: when `StatFs` fails, the capacity pre-check is skipped entirely:
the data is written to the staging file regardless, the `Write` returns
exactly the staging write's error (success whenever the local write
succeeds), and `BytesWritten` grows only on success. -/
theorem write_skips_guard_on_statfs_failure :
    ∀ (fsInfo : FsInfo) (e : GoError) (writeAt : Nat × Option GoError)
      (offset bytesWritten : Nat),
      fhwWrite (fsInfo, some e) writeAt offset bytesWritten =
        { err := writeAt.2, respSize := writeAt.1, stagingWriteCalled := true,
          bytesWrittenAfter :=
            if writeAt.2 = none then bytesWritten + writeAt.1 else bytesWritten } := by
  intro fsInfo e writeAt offset bytesWritten
  by_cases hw : writeAt.2 = none <;> simp [fhwWrite, hw]

/-! ### Sequential read buffer (FileHandleReader.go, FileFragment.go) -/

/-- `BLOCKSIZE` (FileHandleReader.go): 64 KiB. -/
def BLOCKSIZE : Nat := 65536

/-- A cached file fragment (FileFragment.go): its offset from the beginning
of the file and the length of its data. -/
structure Frag where
  off : Nat
  len : Nat
  deriving DecidableEq, Repr

/-- `FileFragment.ReadFromBuffer` coverage test (FileFragment.go): the
request offset falls inside the fragment, i.e.
`start = fileOffset - Offset` lies in `[0, len(Data))`. -/
def fragCovers (f : Frag) (fileOffset : Nat) : Bool :=
  f.off ≤ fileOffset ∧ fileOffset < f.off + f.len

/-- `FileHandleReader` state (FileHandleReader.go): backend stream offset,
the two buffered fragments, and the hole/cache-hit/seek counters. -/
structure ReaderState where
  Offset : Nat
  Buffer1 : Frag
  Buffer2 : Frag
  Holes : Nat
  CacheHits : Nat
  Seeks : Nat
  deriving DecidableEq, Repr

/-- `(maxBytesToRead + BLOCKSIZE - 1) / BLOCKSIZE * BLOCKSIZE`
(FileHandleReader.go): ceiling to the nearest multiple of `BLOCKSIZE`. -/
def roundUpBlock (n : Nat) : Nat := (n + BLOCKSIZE - 1) / BLOCKSIZE * BLOCKSIZE

/-- Decision taken by `FileHandleReader.ReadPartial` up to the backend
read: cache-hit flag, whether a backend `Seek` was issued, the error
returned early (if any), the updated reader state, and the
`minBytesToRead`/`maxBytesToRead` passed to `ReadFromBackend` (0 when no
backend read happens). -/
structure ReadPlan where
  cacheHit : Bool
  seekIssued : Bool
  err : Option GoError
  state : ReaderState
  minBytes : Nat
  maxBytes : Nat
  deriving DecidableEq, Repr

/-- `FileHandleReader.ReadPartial` (FileHandleReader.go), up to the backend
read: serve from a covering fragment (cache hit); otherwise swap the two
buffers and either read in place (`fileOffset == Offset`), read through a
small hole (`0 < gap ≤ 2·BLOCKSIZE`, counting it), or `Seek(fileOffset)`
(counting it; `seekErr` is the backend seek's result, fatal only when
moving backwards), finally rounding `maxBytesToRead` up to a multiple of
`BLOCKSIZE`. -/
def readPartialPlan (st : ReaderState) (fileOffset bufLen : Nat)
    (seekErr : Option GoError) : ReadPlan :=
  if fragCovers st.Buffer1 fileOffset || fragCovers st.Buffer2 fileOffset then
    { cacheHit := true, seekIssued := false, err := none,
      state := { st with CacheHits := st.CacheHits + 1 }, minBytes := 0, maxBytes := 0 }
  else
    let st1 := { st with Buffer1 := st.Buffer2, Buffer2 := st.Buffer1 }
    if fileOffset ≠ st1.Offset then
      if fileOffset > st1.Offset ∧ fileOffset - st1.Offset ≤ BLOCKSIZE * 2 then
        let holeSize := fileOffset - st1.Offset
        { cacheHit := false, seekIssued := false, err := none,
          state := { st1 with Holes := st1.Holes + 1 },
          minBytes := holeSize + 1, maxBytes := roundUpBlock (bufLen + holeSize) }
      else
        if seekErr ≠ none ∧ st1.Offset > fileOffset then
          { cacheHit := false, seekIssued := true, err := seekErr,
            state := { st1 with Seeks := st1.Seeks + 1 }, minBytes := 0, maxBytes := 0 }
        else
          { cacheHit := false, seekIssued := true, err := none,
            state := { st1 with Seeks := st1.Seeks + 1, Offset := fileOffset },
            minBytes := 1, maxBytes := roundUpBlock bufLen }
    else
      { cacheHit := false, seekIssued := false, err := none, state := st1,
        minBytes := 1, maxBytes := roundUpBlock bufLen }

/-- C6: on a buffer miss, `ReadPartial` reads in place when the request is
at the backend offset; reads through the gap (counting a hole, enlarging
the read by the gap and requiring at least `gap+1` bytes) when
`0 < gap ≤ 2·BLOCKSIZE` with `BLOCKSIZE = 64 KiB`; and otherwise issues
`Seek` (counting it), failing only when the seek errs while moving
backwards; the backend read size is rounded up to the next multiple of
`BLOCKSIZE`. -/
theorem readpartial_hole_seek_policy :
    BLOCKSIZE = 65536 ∧
    (∀ n : Nat, n ≤ roundUpBlock n ∧ roundUpBlock n % BLOCKSIZE = 0 ∧
      roundUpBlock n < n + BLOCKSIZE) ∧
    (∀ (st : ReaderState) (fileOffset bufLen : Nat) (seekErr : Option GoError),
      fragCovers st.Buffer1 fileOffset = false →
      fragCovers st.Buffer2 fileOffset = false →
      (fileOffset = st.Offset →
        readPartialPlan st fileOffset bufLen seekErr =
          { cacheHit := false, seekIssued := false, err := none,
            state := { st with Buffer1 := st.Buffer2, Buffer2 := st.Buffer1 },
            minBytes := 1, maxBytes := roundUpBlock bufLen }) ∧
      (st.Offset < fileOffset → fileOffset - st.Offset ≤ 2 * BLOCKSIZE →
        readPartialPlan st fileOffset bufLen seekErr =
          { cacheHit := false, seekIssued := false, err := none,
            state := { st with
              Buffer1 := st.Buffer2
              Buffer2 := st.Buffer1
              Holes := st.Holes + 1 },
            minBytes := (fileOffset - st.Offset) + 1,
            maxBytes := roundUpBlock (bufLen + (fileOffset - st.Offset)) }) ∧
      (fileOffset ≠ st.Offset →
        ¬ (st.Offset < fileOffset ∧ fileOffset - st.Offset ≤ 2 * BLOCKSIZE) →
        readPartialPlan st fileOffset bufLen seekErr =
          if seekErr ≠ none ∧ st.Offset > fileOffset then
            { cacheHit := false, seekIssued := true, err := seekErr,
              state := { st with
                Buffer1 := st.Buffer2
                Buffer2 := st.Buffer1
                Seeks := st.Seeks + 1 },
              minBytes := 0, maxBytes := 0 }
          else
            { cacheHit := false, seekIssued := true, err := none,
              state := { st with
                Buffer1 := st.Buffer2
                Buffer2 := st.Buffer1
                Seeks := st.Seeks + 1
                Offset := fileOffset },
              minBytes := 1, maxBytes := roundUpBlock bufLen })) := by
  refine ⟨rfl, ?_, ?_⟩
  · intro n
    unfold roundUpBlock BLOCKSIZE
    omega
  · intro st fileOffset bufLen seekErr h1 h2
    have hcov : (fragCovers st.Buffer1 fileOffset || fragCovers st.Buffer2 fileOffset) = false := by
      rw [h1, h2]
      rfl
    refine ⟨?_, ?_, ?_⟩
    · intro hfo
      unfold readPartialPlan
      rw [hcov]
      show (if fileOffset ≠ st.Offset then _ else _) = _
      rw [if_neg (by omega)]
    · intro hlt hgap
      unfold readPartialPlan
      rw [hcov]
      show (if fileOffset ≠ st.Offset then _ else _) = _
      rw [if_pos (by omega)]
      show (if fileOffset > st.Offset ∧ fileOffset - st.Offset ≤ BLOCKSIZE * 2 then _ else _) = _
      rw [if_pos (by constructor <;> omega)]
    · intro hne hfar
      unfold readPartialPlan
      rw [hcov]
      show (if fileOffset ≠ st.Offset then _ else _) = _
      rw [if_pos hne]
      show (if fileOffset > st.Offset ∧ fileOffset - st.Offset ≤ BLOCKSIZE * 2 then _ else _) = _
      rw [if_neg (by rw [show BLOCKSIZE * 2 = 2 * BLOCKSIZE from by omega]; exact hfar)]

/-- Witness for C6: a reader with empty buffers at backend offset 1000:
an in-place read at 1000, a hole read at 1500, and a far seek to 500000. -/
theorem readpartial_hole_seek_policy_witness :
    readPartialPlan ⟨1000, ⟨0, 0⟩, ⟨0, 0⟩, 0, 0, 0⟩ 1000 4096 none =
      { cacheHit := false, seekIssued := false, err := none,
        state := ⟨1000, ⟨0, 0⟩, ⟨0, 0⟩, 0, 0, 0⟩, minBytes := 1, maxBytes := 65536 } ∧
    readPartialPlan ⟨1000, ⟨0, 0⟩, ⟨0, 0⟩, 0, 0, 0⟩ 1500 4096 none =
      { cacheHit := false, seekIssued := false, err := none,
        state := ⟨1000, ⟨0, 0⟩, ⟨0, 0⟩, 1, 0, 0⟩, minBytes := 501, maxBytes := 65536 } ∧
    readPartialPlan ⟨1000, ⟨0, 0⟩, ⟨0, 0⟩, 0, 0, 0⟩ 500000 4096 none =
      { cacheHit := false, seekIssued := true, err := none,
        state := ⟨500000, ⟨0, 0⟩, ⟨0, 0⟩, 0, 0, 1⟩, minBytes := 1, maxBytes := 65536 } := by
  have h := readpartial_hole_seek_policy.2.2 ⟨1000, ⟨0, 0⟩, ⟨0, 0⟩, 0, 0, 0⟩
  refine ⟨?_, ?_, ?_⟩
  · exact (h 1000 4096 none rfl rfl).1 rfl
  · have := (h 1500 4096 none rfl rfl).2.1 (by norm_num) (by norm_num [BLOCKSIZE])
    simpa using this
  · have := (h 500000 4096 none rfl rfl).2.2 (by norm_num) (by norm_num [BLOCKSIZE])
    simpa using this

/-! ### Directory cache and prefix gate (Dir.go, FileSystem.go) -/

/-- `strings.HasPrefix`-style test over character lists: does `s` start
with `pat`? -/
def listStartsWith : List Char → List Char → Bool
  | [], _ => true
  | _ :: _, [] => false
  | p :: ps, c :: cs => p = c && listStartsWith ps cs

/-- Go `strings.HasPrefix(s, pat)`. -/
def strStartsWith (s pat : String) : Bool := listStartsWith pat.toList s.toList

/-- Go `strings.HasSuffix(s, pat)`. -/
def strEndsWith (s pat : String) : Bool :=
  listStartsWith pat.toList.reverse s.toList.reverse

/-- Does `s` contain `pat` as a contiguous run? (Go `strings.Contains`.) -/
def listContainsSeq (pat : List Char) : List Char → Bool
  | [] => listStartsWith pat []
  | c :: cs => listStartsWith pat (c :: cs) || listContainsSeq pat cs

/-- Go `strings.Contains(s, pat)`. -/
def strContains (s pat : String) : Bool := listContainsSeq pat.toList s.toList

/-- `FileSystem.IsPathAllowed` (FileSystem.go): `/` is always allowed;
otherwise some configured prefix is `*`, equals the path as `/prefix`, or
the path starts with `/prefix/`. -/
def IsPathAllowed (allowedPrefixes : List String) (path : String) : Bool :=
  if path = "/" then true
  else allowedPrefixes.any fun pfx =>
    pfx = "*" || ("/" ++ pfx) = path || strStartsWith path ("/" ++ pfx ++ "/")

/-- `Dir.AbsolutePathForChild` (Dir.go). -/
def AbsolutePathForChild (dirPath name : String) : String :=
  (if dirPath ≠ "/" then dirPath ++ "/" else dirPath) ++ name

/-- Go `path.Join(dirPath, name)` for a clean absolute `dirPath` and plain
`name` (the only shape `Dir.LookupAttrs` uses). -/
def joinPath (dirPath name : String) : String :=
  if dirPath = "/" then "/" ++ name else dirPath ++ "/" ++ name

/-- `os.ModeDir`: bit 31 of `os.FileMode`. -/
def osModeDir : Nat := 0x80000000

/-- `Attrs.FuseNodeType` (Attrs.go) as a Bool: DT_Dir when
`Mode & ModeDir == ModeDir`. -/
def attrsFuseIsDir (a : Attrs) : Bool := a.Mode &&& osModeDir = osModeDir

/-- A cached FUSE node of the directory tree (Dir.go / File.go /
ZipDir.go): `Dir`, `File`, or the synthesized zip-root directory. -/
inductive FsNode where
  | fileNode (a : Attrs)
  | dirNode (a : Attrs)
  | zipRootDir (a : Attrs)
  deriving DecidableEq, Repr

/-- `Dir.NodeFromAttrs` (Dir.go): `(Mode & ModeDir) == 0` gives a `File`,
otherwise a `Dir` (the `EntriesSet` it performs is handled by callers of
this pure function). -/
def nodeFromAttrs (a : Attrs) : FsNode :=
  if a.Mode &&& osModeDir = 0 then .fileNode a else .dirNode a

/-- The directory's `Entries` map (`map[string]fs.Node`). -/
def EntriesMap := String → Option FsNode

/-- `Dir.EntriesSet` (Dir.go). -/
def entriesSet (m : EntriesMap) (name : String) (node : FsNode) : EntriesMap :=
  fun k => if k = name then some node else m k

/-- `Dir.EntriesGet` (Dir.go). -/
def entriesGet (m : EntriesMap) (name : String) : Option FsNode := m name

/-- A FUSE directory entry as emitted by `ReadDirAll`. -/
structure Dirent where
  Inode : Nat
  Name : String
  IsDir : Bool
  deriving DecidableEq, Repr

/-- One iteration of the `ReadDirAll` loop (Dir.go): gate the child path;
when allowed emit its `Dirent`, speculatively cache the child node
(`NodeFromAttrs` + `EntriesSet`), and with `ExpandZips` also emit a
`<name>@` virtual directory entry for non-directory `.zip` names. -/
def readDirAllStep (prefixes : List String) (expandZips : Bool) (dirPath : String)
    (acc : List Dirent × EntriesMap) (a : Attrs) : List Dirent × EntriesMap :=
  if IsPathAllowed prefixes (AbsolutePathForChild dirPath a.Name) then
    let withEntry : List Dirent × EntriesMap :=
      (acc.1 ++ [⟨a.Inode, a.Name, attrsFuseIsDir a⟩],
        entriesSet acc.2 a.Name (nodeFromAttrs a))
    if expandZips ∧ attrsFuseIsDir a = false ∧ strEndsWith a.Name ".zip" then
      (withEntry.1 ++ [⟨0, a.Name ++ "@", true⟩], withEntry.2)
    else withEntry
  else acc

/-- `Dir.ReadDirAll` (Dir.go) after a successful backend `ReadDir`
returning `allAttrs`: the emitted entries and the updated children map. -/
def readDirAll (prefixes : List String) (expandZips : Bool) (dirPath : String)
    (allAttrs : List Attrs) (entries0 : EntriesMap) : List Dirent × EntriesMap :=
  allAttrs.foldl (readDirAllStep prefixes expandZips dirPath) ([], entries0)

/-- Outcome of `Dir.Lookup`: the returned node or error, the number of
backend `Stat` calls issued, and the children map afterwards. -/
structure LookupOutcome where
  result : Except GoError FsNode
  statCalls : Nat
  newEntries : EntriesMap

/-- `Dir.Lookup` (Dir.go): prefix-gate check (`ENOENT` when denied), then
the cached-child fast path, then with `ExpandZips` the `<x>.zip@` virtual
directory (recursing on the `.zip` file; `fuel` bounds that recursion —
`name.length` always suffices since the recursive name is shorter), and
finally `LookupAttrs`: a backend `Stat` at `path.Join(dir, name)`, mapping
a path error wrapping not-found to `ENOENT`, stamping
`Expires = now + 1 min` and caching the materialized node. -/
def dirLookup (prefixes : List String) (expandZips : Bool) (dirPath : String)
    (entries : EntriesMap) (stat : String → Except GoError Attrs) (now : Nat) :
    Nat → String → LookupOutcome
  | fuel, name =>
    if IsPathAllowed prefixes (AbsolutePathForChild dirPath name) = false then
      ⟨.error (.base .enoent), 0, entries⟩
    else
      match entriesGet entries name with
      | some node => ⟨.ok node, 0, entries⟩
      | none =>
        if expandZips ∧ strEndsWith name ".zip@" then
          match fuel with
          | 0 => ⟨.error (.base .enoent), 0, entries⟩
          | fuel' + 1 =>
            let sub := dirLookup prefixes expandZips dirPath entries stat now fuel'
              (name.dropRight 1)
            match sub.result with
            | .error e => ⟨.error e, sub.statCalls, sub.newEntries⟩
            | .ok (.fileNode a) =>
                ⟨.ok (.zipRootDir
                  { a with Mode := a.Mode ||| osModeDir ||| 0o111, Name := name, Inode := 0 }),
                  sub.statCalls, sub.newEntries⟩
            | .ok _ => ⟨.error (.base .enoent), sub.statCalls, sub.newEntries⟩
        else
          match stat (joinPath dirPath name) with
          | .error (.pathError (.base .notExist)) => ⟨.error (.base .enoent), 1, entries⟩
          | .error e => ⟨.error e, 1, entries⟩
          | .ok a =>
              let a' := { a with Expires := now + 60000000000 }
              ⟨.ok (nodeFromAttrs a'), 1, entriesSet entries a'.Name (nodeFromAttrs a')⟩

/-- `Dir.Lookup` entry point: fuel large enough for the zip recursion. -/
def dirLookupTop (prefixes : List String) (expandZips : Bool) (dirPath : String)
    (entries : EntriesMap) (stat : String → Except GoError Attrs) (now : Nat)
    (name : String) : LookupOutcome :=
  dirLookup prefixes expandZips dirPath entries stat now name.length name

lemma readDirAll_preserve (prefixes : List String) (expandZips : Bool) (dirPath : String) :
    ∀ (l : List Attrs) (acc : List Dirent × EntriesMap) (name : String),
      name ∉ l.map Attrs.Name →
      (l.foldl (readDirAllStep prefixes expandZips dirPath) acc).2 name = acc.2 name := by
  intro l
  induction l with
  | nil => intro acc name _; rfl
  | cons b t ih =>
      intro acc name h
      simp only [List.map_cons, List.mem_cons, not_or] at h
      obtain ⟨hne, hnt⟩ := h
      show (t.foldl (readDirAllStep prefixes expandZips dirPath)
        (readDirAllStep prefixes expandZips dirPath acc b)).2 name = acc.2 name
      rw [ih _ name hnt]
      unfold readDirAllStep
      by_cases hallow : IsPathAllowed prefixes (AbsolutePathForChild dirPath b.Name) = true
      · rw [if_pos hallow]
        by_cases hzip : expandZips = true ∧ attrsFuseIsDir b = false ∧
            strEndsWith b.Name ".zip" = true
        · rw [if_pos hzip]
          show entriesSet acc.2 b.Name (nodeFromAttrs b) name = acc.2 name
          unfold entriesSet
          rw [if_neg hne]
        · rw [if_neg hzip]
          show entriesSet acc.2 b.Name (nodeFromAttrs b) name = acc.2 name
          unfold entriesSet
          rw [if_neg hne]
      · rw [if_neg hallow]

lemma readDirAll_mem (prefixes : List String) (expandZips : Bool) (dirPath : String) :
    ∀ (l : List Attrs) (acc : List Dirent × EntriesMap) (a : Attrs),
      a ∈ l →
      (l.map Attrs.Name).Nodup →
      IsPathAllowed prefixes (AbsolutePathForChild dirPath a.Name) = true →
      (l.foldl (readDirAllStep prefixes expandZips dirPath) acc).2 a.Name =
        some (nodeFromAttrs a) := by
  intro l
  induction l with
  | nil => intro acc a hmem; exact absurd hmem (List.not_mem_nil a)
  | cons b t ih =>
      intro acc a hmem hnd hallow
      simp only [List.map_cons, List.nodup_cons] at hnd
      obtain ⟨hbt, hndt⟩ := hnd
      rcases List.mem_cons.mp hmem with hab | hat
      · subst hab
        show (t.foldl (readDirAllStep prefixes expandZips dirPath)
          (readDirAllStep prefixes expandZips dirPath acc a)).2 a.Name = _
        rw [readDirAll_preserve prefixes expandZips dirPath t _ a.Name hbt]
        unfold readDirAllStep
        rw [if_pos hallow]
        by_cases hzip : expandZips = true ∧ attrsFuseIsDir a = false ∧
            strEndsWith a.Name ".zip" = true
        · rw [if_pos hzip]
          show entriesSet acc.2 a.Name (nodeFromAttrs a) a.Name = _
          unfold entriesSet
          rw [if_pos rfl]
        · rw [if_neg hzip]
          show entriesSet acc.2 a.Name (nodeFromAttrs a) a.Name = _
          unfold entriesSet
          rw [if_pos rfl]
      · exact ih _ a hat hndt hallow

lemma dirLookup_cached (prefixes : List String) (expandZips : Bool) (dirPath : String)
    (entries : EntriesMap) (stat : String → Except GoError Attrs) (now : Nat)
    (fuel : Nat) (name : String) (node : FsNode)
    (hallow : IsPathAllowed prefixes (AbsolutePathForChild dirPath name) = true)
    (hget : entriesGet entries name = some node) :
    dirLookup prefixes expandZips dirPath entries stat now fuel name =
      ⟨.ok node, 0, entries⟩ := by
  cases fuel with
  | zero =>
      rw [dirLookup.eq_1, if_neg (by rw [hallow]; simp), hget]
  | succ fuel' =>
      rw [dirLookup.eq_2, if_neg (by rw [hallow]; simp), hget]

/-- C7: after a successful `ReadDir` of a directory, a `Lookup` of any
listed name admitted by the prefix gate (names distinct, backend unchanged)
returns exactly the child node `ReadDirAll` speculatively created, issues
zero backend `Stat` calls, and leaves the children map untouched. -/
theorem lookup_after_readdir_prepopulated :
    ∀ (prefixes : List String) (expandZips : Bool) (dirPath : String)
      (allAttrs : List Attrs) (entries0 : EntriesMap)
      (stat : String → Except GoError Attrs) (now : Nat) (a : Attrs),
      a ∈ allAttrs →
      (allAttrs.map Attrs.Name).Nodup →
      IsPathAllowed prefixes (AbsolutePathForChild dirPath a.Name) = true →
      dirLookupTop prefixes expandZips dirPath
          (readDirAll prefixes expandZips dirPath allAttrs entries0).2 stat now a.Name =
        ⟨.ok (nodeFromAttrs a), 0,
          (readDirAll prefixes expandZips dirPath allAttrs entries0).2⟩ := by
  intro prefixes expandZips dirPath allAttrs entries0 stat now a hmem hnd hallow
  have hcache :
      (readDirAll prefixes expandZips dirPath allAttrs entries0).2 a.Name =
        some (nodeFromAttrs a) :=
    readDirAll_mem prefixes expandZips dirPath allAttrs _ a hmem hnd hallow
  unfold dirLookupTop
  exact dirLookup_cached prefixes expandZips dirPath _ stat now a.Name.length a.Name
    (nodeFromAttrs a) hallow hcache

/-- Witness for C7: a two-entry listing under an allow-everything gate; the
lookup of the file entry is served from the speculative cache. -/
theorem lookup_after_readdir_prepopulated_witness :
    dirLookupTop ["*"] false "/data"
        (readDirAll ["*"] false "/data"
          [⟨7, "f", 0, 0, 0, 0, 0, 0, 0, 0⟩, ⟨8, "d", 0x80000000, 0, 0, 0, 0, 0, 0, 0⟩]
          (fun _ => none)).2
        (fun _ => .error (.base (.other 0))) 0 "f" =
      ⟨.ok (nodeFromAttrs ⟨7, "f", 0, 0, 0, 0, 0, 0, 0, 0⟩), 0,
        (readDirAll ["*"] false "/data"
          [⟨7, "f", 0, 0, 0, 0, 0, 0, 0, 0⟩, ⟨8, "d", 0x80000000, 0, 0, 0, 0, 0, 0, 0⟩]
          (fun _ => none)).2⟩ :=
  lookup_after_readdir_prepopulated ["*"] false "/data" _ _ _ 0
    ⟨7, "f", 0, 0, 0, 0, 0, 0, 0, 0⟩ (by simp) (by simp) (by decide)

/-! ### Remove / trash semantics (HdfsAccessor.go) -/

/-- The backend effect of `hdfsAccessorImpl.Remove`. -/
inductive RemoveAction where
  | trashSkip
  | renamed (oldPath newPath : String)
  deriving DecidableEq, Repr

/-- `hdfsAccessorImpl.Remove` (HdfsAccessor.go): when
`strings.Contains(path, ".Trash")` holds, log and return success with no
backend call; otherwise `Rename(path, "/user/root/.Trash/" + path)`,
returning the rename's result (`renameResult` is the oracle for
`MetadataClient.Rename`). -/
def hdfsRemove (renameResult : String → String → Option GoError) (path : String) :
    RemoveAction × Option GoError :=
  if strContains path ".Trash" then (.trashSkip, none)
  else (.renamed path ("/user/root/.Trash/" ++ path),
    renameResult path ("/user/root/.Trash/" ++ path))

/-- Split a character list on `/`. -/
def splitSlash : List Char → List (List Char)
  | [] => [[]]
  | c :: cs =>
    match splitSlash cs with
    | [] => [[]]
    | seg :: rest => if c = '/' then [] :: seg :: rest else (c :: seg) :: rest

/-- Definition following the claim's words, for comparison with the code's
substring test: the path contains `.Trash` as a slash-separated segment. -/
def containsTrashSegment (path : String) : Bool :=
  (splitSlash path.toList).contains ".Trash".toList

lemma listStartsWith_iff (pat : List Char) :
    ∀ s : List Char, listStartsWith pat s = true ↔ ∃ t, s = pat ++ t := by
  induction pat with
  | nil =>
      intro s
      simp [listStartsWith]
  | cons p ps ih =>
      intro s
      cases s with
      | nil =>
          simp [listStartsWith]
      | cons c cs =>
          simp only [listStartsWith, Bool.and_eq_true, decide_eq_true_eq, ih cs,
            List.cons_append, List.cons.injEq]
          constructor
          · rintro ⟨hpc, t, ht⟩
            exact ⟨t, hpc.symm, ht⟩
          · rintro ⟨t, hcp, ht⟩
            exact ⟨hcp.symm, t, ht⟩

lemma listContainsSeq_iff (pat : List Char) :
    ∀ s : List Char, listContainsSeq pat s = true ↔ ∃ a b, s = a ++ pat ++ b := by
  intro s
  induction s with
  | nil =>
      simp only [listContainsSeq, listStartsWith_iff]
      constructor
      · rintro ⟨t, ht⟩
        exact ⟨[], t, ht⟩
      · rintro ⟨a, b, h⟩
        cases a with
        | nil => exact ⟨b, by simpa using h⟩
        | cons x xs => simp at h
  | cons c cs ih =>
      simp only [listContainsSeq, Bool.or_eq_true, listStartsWith_iff, ih]
      constructor
      · rintro (⟨t, ht⟩ | ⟨a, b, h⟩)
        · exact ⟨[], t, ht⟩
        · exact ⟨c :: a, b, by simp [h]⟩
      · rintro ⟨a, b, h⟩
        cases a with
        | nil =>
            left
            exact ⟨b, by simpa using h⟩
        | cons a0 as =>
            right
            rw [List.cons_append, List.cons_append, List.cons.injEq] at h
            exact ⟨as, b, h.2⟩

/-- C8 (amended): `Remove` skips with success, and without any backend
call, every path containing `.Trash` as a **substring** (not only as a path
segment); every other path is renamed into `/user/root/.Trash/<path>` with
the rename's result returned; the substring test holds exactly when the
path's characters decompose as `a ++ ".Trash" ++ b`. -/
theorem remove_trash_substring :
    (∀ (renameResult : String → String → Option GoError) (path : String),
      strContains path ".Trash" = true →
      hdfsRemove renameResult path = (.trashSkip, none)) ∧
    (∀ (renameResult : String → String → Option GoError) (path : String),
      strContains path ".Trash" = false →
      hdfsRemove renameResult path =
        (.renamed path ("/user/root/.Trash/" ++ path),
          renameResult path ("/user/root/.Trash/" ++ path))) ∧
    (∀ s pat : String, strContains s pat = true ↔
      ∃ a b : List Char, s.toList = a ++ pat.toList ++ b) := by
  refine ⟨?_, ?_, ?_⟩
  · intro renameResult path h
    unfold hdfsRemove
    rw [if_pos h]
  · intro renameResult path h
    unfold hdfsRemove
    rw [if_neg (by rw [h]; simp)]
  · intro s pat
    exact listContainsSeq_iff pat.toList s.toList

/-- Counterexample for C8 as stated: `/data/x.Trashy` has no `.Trash`
path segment, yet `Remove` skips it with success and performs no rename
(the code tests for a substring, not a segment). -/
theorem remove_trash_segment_counterexample :
    containsTrashSegment "/data/x.Trashy" = false ∧
    hdfsRemove (fun _ _ => some (.base (.other 7))) "/data/x.Trashy" =
      (.trashSkip, none) ∧
    strContains "/data/x.Trashy" ".Trash" = true := by
  decide

/-- Witness for C8 (amended): a `.Trash`-substring path is skipped; a plain
path is renamed into the trash location. -/
theorem remove_trash_substring_witness :
    hdfsRemove (fun _ _ => none) "/user/root/.Trash/x" = (.trashSkip, none) ∧
    hdfsRemove (fun _ _ => none) "/a/b" =
      (.renamed "/a/b" "/user/root/.Trash//a/b", none) :=
  ⟨remove_trash_substring.1 _ _ (by decide),
    remove_trash_substring.2.1 _ _ (by decide)⟩

/-! ### Fault-tolerant reader seek (FaultTolerantHdfsReader.go, HdfsReader.go) -/

/-- The opaque `hdfs.FileReader` the base reader wraps: its position and the
library behaviour of `Seek(pos, 0)` — the error (if any) and the actual
position it would report for a requested target. -/
structure BackendStream where
  pos : Nat
  seekErr : Nat → Option GoError
  seekActual : Nat → Nat

/-- `BackendReader.Seek(pos, 0)`: returns (actual position, error, stream
after); on success the stream sits at the reported actual position. -/
def backendSeek (b : BackendStream) (pos : Nat) : Nat × Option GoError × BackendStream :=
  match b.seekErr pos with
  | some e => (b.pos, some e, b)
  | none => (b.seekActual pos, none, { b with pos := b.seekActual pos })

/-- `hdfsReaderImpl.Seek` (HdfsReader.go): delegate to
`BackendReader.Seek(pos, 0)`; propagate its error; also fail (with the
"Can't seek to requested position" error, code 1 here) when the reported
actual position differs from the request. -/
def hdfsReaderSeek (b : BackendStream) (pos : Nat) : Option GoError × BackendStream :=
  let r := backendSeek b pos
  match r.2.1 with
  | some e => (some e, r.2.2)
  | none => if pos ≠ r.1 then (some (.base (.other 1)), r.2.2) else (none, r.2.2)

/-- The `FaultTolerantHdfsReader` fields `Seek` touches: the wrapped stream
and the virtual offset. -/
structure FtReader where
  Impl : BackendStream
  Offset : Nat

/-- Outcome of `FaultTolerantHdfsReader.Seek`: returned error, reader
state after, and how many times the wrapped stream's `Seek` ran. -/
structure FtSeekOutcome where
  err : Option GoError
  reader : FtReader
  backendSeekCalls : Nat

/-- `FaultTolerantHdfsReader.Seek` (FaultTolerantHdfsReader.go): call
`Impl.Seek(pos)` once (no retries); on success set the virtual offset to
`pos`; return the error as-is. -/
def ftReaderSeek (r : FtReader) (pos : Nat) : FtSeekOutcome :=
  let s := hdfsReaderSeek r.Impl pos
  if s.1 = none then
    { err := none, reader := { Impl := s.2, Offset := pos }, backendSeekCalls := 1 }
  else
    { err := s.1, reader := { r with Impl := s.2 }, backendSeekCalls := 1 }

/-- Counterexample for C9 as stated: with a wrapped stream whose seek
fails (error 9), `Seek(5)` returns that error directly — it does not defer
it to the next `Read` — and it makes exactly one call into the wrapped
stream; moreover with a succeeding wrapped stream the wrapped stream's
position does change (0 → 5), so the backend stream is not left
untouched. -/
theorem ft_seek_counterexample :
    (ftReaderSeek ⟨⟨0, fun _ => some (.base (.other 9)), fun p => p⟩, 0⟩ 5).err =
      some (.base (.other 9)) ∧
    (ftReaderSeek ⟨⟨0, fun _ => some (.base (.other 9)), fun p => p⟩, 0⟩
      5).backendSeekCalls = 1 ∧
    (ftReaderSeek ⟨⟨0, fun _ => none, fun p => p⟩, 0⟩ 5).reader.Impl.pos = 5 :=
  ⟨rfl, rfl, rfl⟩

/-- C9 (amended): `Seek` delegates exactly once to the wrapped stream's
`Seek` (it is the retry machinery that is absent, not the call); on success
the virtual offset becomes `pos`, on failure it is left unchanged and the
wrapped seek's error is returned immediately from `Seek` itself. -/
theorem ft_seek_delegates_once :
    ∀ (r : FtReader) (pos : Nat),
      (ftReaderSeek r pos).backendSeekCalls = 1 ∧
      (ftReaderSeek r pos).err = (hdfsReaderSeek r.Impl pos).1 ∧
      (ftReaderSeek r pos).reader.Offset =
        (if (hdfsReaderSeek r.Impl pos).1 = none then pos else r.Offset) ∧
      (ftReaderSeek r pos).reader.Impl = (hdfsReaderSeek r.Impl pos).2 := by
  intro r pos
  by_cases h : (hdfsReaderSeek r.Impl pos).1 = none
  · simp [ftReaderSeek, h]
  · simp [ftReaderSeek, h]
